import Mathlib

/-!
Verification development for the MarGame hangman bot (src/bot.py).

The file shallowly embeds the room / turn / game state machine of the bot:
the word normalizer, the Room record, the guess handler (on_text), the
membership operations (join_by_code, cmd_leave, kick_wait, transfer_wait),
the configuration operations (host_setup_lives, host_setup_word,
start_game) and the registry (rooms_by_code, user_room, close_room).

Modelling conventions:
  * user ids are Int (the code uses the sentinel -1 in current_turn_user);
  * Python sets (players, guessed) are modelled as duplicate-free lists,
    built with membership-guarded insertion; only membership is observed;
  * presentation-only fields (names, tags, last_move, status_msg_ids,
    img_cache) are omitted, except that the three source lines that read
    the nonexistent attribute room.status_msg_id (the dataclass declares
    status_msg_ids: src/bot.py lines 326, 474, 671) are modelled as the
    point where an AttributeError escapes the handler: each affected
    operation returns, next to the partially mutated state, a Bool flag
    recording that the exception escaped;
  * Python str.strip and str.lower are modelled on the character lists of
    strings; lowercasing is implemented for ASCII and the Russian alphabet,
    which is behaviour-preserving here because the game alphabet ALLOWED
    only contains Cyrillic letters and the hyphen.
-/

namespace MarGame

/-- Game alphabet, src/bot.py line 117: lowercase Russian letters plus hyphen. -/
def ALLOWED : List Char := "абвгдеёжзийклмнопрстуфхцчшщъыьэюя-".data

/-- Characters removed from both ends by Python str.strip (ASCII whitespace). -/
def pySpace (c : Char) : Bool :=
  c = ' ' || c = '\t' || c = '\n' || c = '\r' || c = Char.ofNat 11 || c = Char.ofNat 12

/-- Python str.strip modelled on the character list. -/
def pyStrip (s : String) : String :=
  String.mk (((s.data.dropWhile pySpace).reverse.dropWhile pySpace).reverse)

/-- Python str.lower for the characters that can matter here: ASCII letters
and the Russian alphabet (А..Я map down by 0x20, Ё maps to ё). -/
def ruLower (c : Char) : Char :=
  if 0x41 ≤ c.toNat ∧ c.toNat ≤ 0x5A then Char.ofNat (c.toNat + 0x20)
  else if 0x410 ≤ c.toNat ∧ c.toNat ≤ 0x42F then Char.ofNat (c.toNat + 0x20)
  else if c = 'Ё' then 'ё'
  else c

/-- Python str.lower on a whole string. -/
def pyLower (s : String) : String :=
  String.mk (s.data.map ruLower)

/-- normalize_word, src/bot.py lines 135-137: strip, lower, keep only ALLOWED. -/
def normalize_word (w : String) : String :=
  String.mk ((pyLower (pyStrip w)).data.filter (fun ch => ch ∈ ALLOWED))

/-- Room, src/bot.py lines 140-159 (presentation fields omitted, see header). -/
structure Room where
  code : String
  host_id : Int
  players : List Int := []
  order : List Int := []
  started : Bool := false
  max_fails : Nat := 6
  secret : String := ""
  guessed : List Char := []
  fails : Nat := 0
  turn_idx : Nat := 0
deriving Repr, DecidableEq

/-- current_turn_user, src/bot.py lines 181-184: -1 on an empty order,
otherwise order[turn_idx % len(order)]. -/
def current_turn_user (r : Room) : Int :=
  match r.order with
  | [] => -1
  | a :: rest => (a :: rest).get ⟨r.turn_idx % (a :: rest).length, Nat.mod_lt _ (Nat.succ_pos rest.length)⟩

/-- Python set.add on the guessed-letters set (membership-guarded append). -/
def addChar (gs : List Char) (c : Char) : List Char :=
  if c ∈ gs then gs else gs ++ [c]

/-- Python set.update with the letters of a word (guessed.update(set(secret))). -/
def addAll (gs : List Char) (cs : List Char) : List Char :=
  cs.foldl addChar gs

/-- Python set.add on the players set. -/
def addPlayer (ps : List Int) (uid : Int) : List Int :=
  if uid ∈ ps then ps else ps ++ [uid]

/-- Letter-guess mutation, src/bot.py lines 897-901 (guards already passed):
add the letter to guessed and count a fail when it is not in the secret. -/
def applyLetter (r : Room) (ch : Char) : Room :=
  { r with guessed := addChar r.guessed ch,
           fails := r.fails + (if ch ∈ r.secret.data then 0 else 1) }

/-- Word-guess mutation, src/bot.py lines 910-915 (guards already passed):
an exact match reveals every letter of the secret, otherwise one fail. -/
def applyWord (r : Room) (guess : String) : Room :=
  if guess = r.secret then { r with guessed := addAll r.guessed r.secret.data }
  else { r with fails := r.fails + 1 }

/-- Win condition, src/bot.py line 919: secret nonempty (Python truthiness of
the string) and every character of the secret already guessed. -/
def winCond (r : Room) : Prop :=
  r.secret ≠ "" ∧ ∀ ch ∈ r.secret.data, ch ∈ r.guessed

instance (r : Room) : Decidable (winCond r) := by
  unfold winCond
  infer_instance

/-- Loss condition, src/bot.py line 920: fails >= max_fails. -/
def loseCond (r : Room) : Prop :=
  r.max_fails ≤ r.fails

instance (r : Room) : Decidable (loseCond r) := by
  unfold loseCond
  infer_instance

/-- End-of-round evaluation after a state-changing guess, src/bot.py lines
919-933: win ends the round, else loss ends the round, else the turn index
advances by one.  The Option String component is the broadcast sent to the
room (None when the round goes on). -/
def endCheck (r : Room) : Room × Option String :=
  if winCond r then
    ({ r with started := false }, some ("🎉 Победа! Слово: " ++ r.secret))
  else if loseCond r then
    ({ r with started := false }, some ("💀 Поражение. Слово было: " ++ r.secret))
  else
    ({ r with turn_idx := r.turn_idx + 1 }, none)

/-- Conditions under which a guess text is state-changing once the room and
turn guards have passed (src/bot.py lines 886-915): a single letter must be
in the alphabet and new, a longer text must normalize to at least 2 chars.
The argument is the already stripped-and-lowered text as a character list. -/
def validGuess (r : Room) (txt : List Char) : Prop :=
  match txt with
  | [] => False
  | [ch] => ch ∈ ALLOWED ∧ ch ∉ r.guessed
  | _ :: _ :: _ => 2 ≤ (normalize_word (String.mk txt)).length

instance (r : Room) (txt : List Char) : Decidable (validGuess r txt) :=
  match txt with
  | [] => isFalse (fun h => h)
  | [ch] => inferInstanceAs (Decidable (ch ∈ ALLOWED ∧ ch ∉ r.guessed))
  | _ :: _ :: _ => Nat.decLe _ _

/-- Mutation a valid guess performs before the end-of-round evaluation
(src/bot.py lines 886-915); the argument is the stripped-and-lowered text. -/
def mutateGuess (r : Room) (txt : List Char) : Room :=
  match txt with
  | [ch] => applyLetter r ch
  | _ => applyWord r (normalize_word (String.mk txt))

/-- Body of on_text after the room, host and turn guards, src/bot.py lines
882-933; the argument txt is the stripped-and-lowered message text (the
local variable txt of the source).  Empty input, an out-of-alphabet or
repeated letter and a too-short word are rejected without state change;
otherwise the mutation runs and the end conditions are evaluated. -/
def guessCore (r : Room) (txt : List Char) : Room × Option String :=
  match txt with
  | [] => (r, none)
  | [ch] =>
      if ch ∉ ALLOWED then (r, none)
      else if ch ∈ r.guessed then (r, none)
      else endCheck (applyLetter r ch)
  | _ :: _ :: _ =>
      if (normalize_word (String.mk txt)).length < 2 then (r, none)
      else endCheck (applyWord r (normalize_word (String.mk txt)))

/-- on_text, src/bot.py lines 856-933: the guess handler.  Guard order as in
the source: not started or no guessers; host; out of turn; then the letter
or word processing of guessCore on txt = text.strip().lower().
Rejected inputs leave the room unchanged (presentation fields aside) and
broadcast nothing. -/
def on_text (r : Room) (uid : Int) (text : String) : Room × Option String :=
  if r.started = false ∨ r.order = [] then (r, none)
  else if uid = r.host_id then (r, none)
  else if uid ≠ current_turn_user r then (r, none)
  else guessCore r (pyLower (pyStrip text)).data

/-- reset_game, src/bot.py lines 334-340 (last_move and img_cache omitted). -/
def reset_game (r : Room) : Room :=
  { r with started := true, guessed := [], fails := 0, turn_idx := 0 }

/-- start_game, src/bot.py lines 343-359: rejected when no secret is set or
there is no guesser; otherwise the round restarts. -/
def start_game (r : Room) : Room :=
  if r.secret = "" then r
  else if r.order.length < 1 then r
  else reset_game r

/-- host_setup_lives, src/bot.py lines 539-576, restricted to its effect on
the room: a non-digit text or n < 1 is rejected, otherwise max_fails := n.
The button dispatches at lines 543-552 and the non-host rejection leave the
room unchanged and are subsumed by the rejection branch of the other ops. -/
def host_setup_lives (r : Room) (n : Nat) : Room :=
  if n < 1 then r else { r with max_fails := n }

/-- Button texts a setup input is compared against, src/bot.py lines 46, 40, 44. -/
def BTN_CLOSE : String := "🧹 Закрыть комнату"
def BTN_LEAVE : String := "🚪 Выйти из комнаты"
def BTN_START : String := "🚀 Старт игры"

/-- host_setup_word, src/bot.py lines 579-618.  Returns none when the text is
one of the three buttons that dispatch to cmd_close / cmd_leave /
cmd_startgame (their effects are modelled as separate operations); otherwise
some of the room after the handler: unchanged for a non-host or when the
normalized word is shorter than 2 characters, else the secret is set, the
round state is reset with started := false, and, when at least one guesser
is present, start_game runs immediately (lines 617-618). -/
def host_setup_word (r : Room) (uid : Int) (text : String) : Option Room :=
  if pyStrip text = BTN_CLOSE ∨ pyStrip text = BTN_LEAVE ∨ pyStrip text = BTN_START then none
  else if uid ≠ r.host_id then some r
  else if (normalize_word (pyStrip text)).length < 2 then some r
  else if 1 ≤ r.order.length then
    some (start_game { r with secret := normalize_word (pyStrip text), started := false,
                              guessed := [], fails := 0, turn_idx := 0 })
  else
    some { r with secret := normalize_word (pyStrip text), started := false,
                  guessed := [], fails := 0, turn_idx := 0 }

/-- Room-level effect of join_by_code, src/bot.py lines 448-456: the user is
added to players, and appended to order unless they are the host or already
present. -/
def join_room (r : Room) (uid : Int) : Room :=
  { r with players := addPlayer r.players uid,
           order := if uid ≠ r.host_id ∧ uid ∉ r.order
                    then r.order ++ [uid] else r.order }

/-- Room-level effect of cmd_leave, src/bot.py lines 471-474: user_room and
players lose the user, then the handler reads room.status_msg_id — an
attribute the Room dataclass does not declare (the field is status_msg_ids)
— and the resulting AttributeError aborts the handler: order, turn_idx,
started and the host check at line 486 are never reached. -/
def leave_room (r : Room) (uid : Int) : Room :=
  { r with players := r.players.erase uid }

/-- Room-level effect of kick_wait, src/bot.py lines 641-694 for a selection
idx (1-based).  Out-of-range selections are rejected.  For a valid index the
target is removed from players (line 669), then line 671 reads the
nonexistent attribute room.status_msg_id and the AttributeError aborts the
handler: order.remove (line 673), the turn re-normalization and the
started shutdown (lines 689-691) are never reached. -/
def kick_room (r : Room) (idx : Nat) : Room :=
  if 1 ≤ idx ∧ idx ≤ r.order.length then
    { r with players := r.players.erase (r.order.getD (idx - 1) 0) }
  else r

/-- Order rebuilding of transfer_wait, src/bot.py lines 753-759: the new
host is removed from order (hosts never guess), then the outgoing host is
appended when they are a distinct user, still a member, and not already a
guesser. -/
def transferOrder (r : Room) (new_host : Int) : List Int :=
  if r.host_id ≠ new_host ∧ r.host_id ∈ r.players
       ∧ r.host_id ∉ r.order.erase new_host
  then r.order.erase new_host ++ [r.host_id]
  else r.order.erase new_host

/-- transfer_wait continued: the full room effect, including the turn fix of
src/bot.py lines 763-773 (the previously active guesser keeps the turn when
still in order, otherwise the index is taken modulo the new length; an
emptied order resets the index and stops a started game). -/
def transfer_room (r : Room) (new_host : Int) : Room :=
  if transferOrder r new_host = [] then
    if r.started
    then { r with host_id := new_host, order := transferOrder r new_host,
                  turn_idx := 0, started := false }
    else { r with host_id := new_host, order := transferOrder r new_host, turn_idx := 0 }
  else
    if current_turn_user r ∈ transferOrder r new_host
    then { r with host_id := new_host, order := transferOrder r new_host,
                  turn_idx := (transferOrder r new_host).findIdx
                    (fun x => x = current_turn_user r) }
    else { r with host_id := new_host, order := transferOrder r new_host,
                  turn_idx := r.turn_idx % (transferOrder r new_host).length }

/-- cmd_create, src/bot.py lines 392-414: a fresh room whose sole member is
the host and whose guessing order is empty. -/
def create_room (code : String) (uid : Int) : Room :=
  { code := code, host_id := uid, players := [uid] }

/-- One room-level operation of the state machine.  cmd_close touches no Room
field (close_room only mutates the registry before its own AttributeError),
so it has no constructor here; its registry effect is modelled below. -/
inductive Op where
  | join (uid : Int)
  | leave (uid : Int)
  | kick (idx : Nat)
  | transfer (new_host : Int)
  | startg
  | setLives (n : Nat)
  | setWord (uid : Int) (text : String)
  | guess (uid : Int) (text : String)

/-- Effect of one operation on a room.  In the setWord case a button text
dispatches to the close / leave / start handlers, which are the other
constructors, so the room itself is returned there. -/
def applyOp (r : Room) (op : Op) : Room :=
  match op with
  | .join uid => join_room r uid
  | .leave uid => leave_room r uid
  | .kick idx => kick_room r idx
  | .transfer nh => transfer_room r nh
  | .startg => start_game r
  | .setLives n => host_setup_lives r n
  | .setWord uid text =>
      match host_setup_word r uid text with
      | some r1 => r1
      | none => r
  | .guess uid text => (on_text r uid text).1

/-- Side condition of an operation.  The transfer candidate list is built
from players excluding the host (src/bot.py line 706) and only the host's
own next message reaches transfer_wait, so the selected new host is never
the current host. -/
def opGuard (r : Room) (op : Op) : Prop :=
  match op with
  | .transfer nh => nh ≠ r.host_id
  | _ => True

/-- Room well-formedness used by the invariant claims: the guessing order is
duplicate-free, the host never guesses, and a started round has a guesser. -/
def RoomInv (r : Room) : Prop :=
  r.order.Nodup ∧ r.host_id ∉ r.order ∧ (r.started = true → r.order ≠ [])

instance (r : Room) : Decidable (RoomInv r) := by
  unfold RoomInv
  infer_instance

/-- Registry: rooms_by_code and user_room, src/bot.py lines 162-163. -/
structure GState where
  rooms_by_code : List (String × Room)
  user_room : List (Int × String)
deriving Repr, DecidableEq

/-- Lookup in user_room (dict.get). -/
def lookupUser (m : List (Int × String)) (uid : Int) : Option String :=
  (m.find? (fun p => p.1 = uid)).map (fun p => p.2)

/-- Lookup in rooms_by_code (dict.get). -/
def lookupRoom (m : List (String × Room)) (code : String) : Option Room :=
  (m.find? (fun p => p.1 = code)).map (fun p => p.2)

/-- dict.pop(key, None) on user_room. -/
def dropUser (m : List (Int × String)) (uid : Int) : List (Int × String) :=
  m.filter (fun p => ¬ p.1 = uid)

/-- dict.pop(key, None) on rooms_by_code. -/
def dropRoom (m : List (String × Room)) (code : String) : List (String × Room) :=
  m.filter (fun p => ¬ p.1 = code)

/-- Write back a mutated room under its code (Python mutates in place). -/
def putRoom (m : List (String × Room)) (code : String) (r : Room) : List (String × Room) :=
  m.map (fun p => if p.1 = code then (p.1, r) else p)

/-- get_room_by_user, src/bot.py lines 167-171. -/
def get_room_by_user (gs : GState) (uid : Int) : Option Room :=
  match lookupUser gs.user_room uid with
  | none => none
  | some code => lookupRoom gs.rooms_by_code code

/-- cmd_leave, src/bot.py lines 461-492, at registry level.  The Bool records
whether an exception escaped the handler: after user_room.pop (line 472) and
players.discard (line 473), line 474 reads room.status_msg_id — the Room
dataclass declares status_msg_ids, not status_msg_id — so an AttributeError
always escapes; order removal (lines 476-484), the host branch calling
close_room (lines 486-488) and rooms_by_code.pop never execute, for host
and non-host alike. -/
def cmd_leave (gs : GState) (uid : Int) : GState × Bool :=
  match get_room_by_user gs uid with
  | none => (gs, false)
  | some room =>
      let room1 := { room with players := room.players.erase uid }
      ({ rooms_by_code := putRoom gs.rooms_by_code room.code room1,
         user_room := dropUser gs.user_room uid }, true)

/-- close_room, src/bot.py lines 320-331.  The loop over players pops the
first member's user_room entry (line 325) and then line 326 reads the
nonexistent room.status_msg_id: the AttributeError escapes and
rooms_by_code.pop (line 331) never runs.  Only with no members at all does
the loop body never execute and the room actually leave the registry.
Python set iteration order is unspecified; the model iterates players in
list order — the facts proved below do not depend on that choice. -/
def close_room (gs : GState) (room : Room) : GState × Bool :=
  match room.players with
  | [] => ({ gs with rooms_by_code := dropRoom gs.rooms_by_code room.code }, false)
  | uid :: _ => ({ gs with user_room := dropUser gs.user_room uid }, true)

/-- cmd_close, src/bot.py lines 495-505: only the host may close; the close
itself is close_room. -/
def cmd_close (gs : GState) (uid : Int) : GState × Bool :=
  match get_room_by_user gs uid with
  | none => (gs, false)
  | some room => if room.host_id ≠ uid then (gs, false) else close_room gs room

/-! Helper lemmas about the guess handler. -/

lemma mutateGuess_nil (r : Room) :
    mutateGuess r [] = applyWord r (normalize_word (String.mk [])) := rfl

lemma mutateGuess_one (r : Room) (a : Char) :
    mutateGuess r [a] = applyLetter r a := rfl

lemma mutateGuess_cons (r : Room) (a b : Char) (t : List Char) :
    mutateGuess r (a :: b :: t) = applyWord r (normalize_word (String.mk (a :: b :: t))) := rfl

lemma guessCore_nil (r : Room) : guessCore r [] = (r, none) := rfl

lemma guessCore_one (r : Room) (a : Char) :
    guessCore r [a] = if a ∉ ALLOWED then (r, none)
      else if a ∈ r.guessed then (r, none)
      else endCheck (applyLetter r a) := rfl

lemma guessCore_cons (r : Room) (a b : Char) (t : List Char) :
    guessCore r (a :: b :: t) =
      if (normalize_word (String.mk (a :: b :: t))).length < 2 then (r, none)
      else endCheck (applyWord r (normalize_word (String.mk (a :: b :: t)))) := rfl

lemma validGuess_one (r : Room) (a : Char) :
    validGuess r [a] ↔ a ∈ ALLOWED ∧ a ∉ r.guessed := Iff.rfl

lemma validGuess_cons (r : Room) (a b : Char) (t : List Char) :
    validGuess r (a :: b :: t) ↔ 2 ≤ (normalize_word (String.mk (a :: b :: t))).length := Iff.rfl

lemma endCheck_win (r : Room) (h : winCond r) :
    endCheck r = ({ r with started := false }, some ("🎉 Победа! Слово: " ++ r.secret)) := by
  unfold endCheck
  rw [if_pos h]

lemma endCheck_lose (r : Room) (hw : ¬ winCond r) (hl : loseCond r) :
    endCheck r = ({ r with started := false }, some ("💀 Поражение. Слово было: " ++ r.secret)) := by
  unfold endCheck
  rw [if_neg hw, if_pos hl]

lemma endCheck_cont (r : Room) (hw : ¬ winCond r) (hl : ¬ loseCond r) :
    endCheck r = ({ r with turn_idx := r.turn_idx + 1 }, none) := by
  unfold endCheck
  rw [if_neg hw, if_neg hl]

lemma endCheck_frame (r : Room) :
    (endCheck r).1.order = r.order ∧ (endCheck r).1.host_id = r.host_id
    ∧ (endCheck r).1.secret = r.secret ∧ (endCheck r).1.fails = r.fails
    ∧ (endCheck r).1.guessed = r.guessed ∧ (endCheck r).1.max_fails = r.max_fails
    ∧ ((endCheck r).1.started = true → r.started = true) := by
  unfold endCheck
  split
  · simp
  · split <;> simp

lemma applyWord_frame (r : Room) (w : String) :
    (applyWord r w).secret = r.secret ∧ (applyWord r w).max_fails = r.max_fails
    ∧ (applyWord r w).turn_idx = r.turn_idx ∧ (applyWord r w).started = r.started
    ∧ (applyWord r w).order = r.order ∧ (applyWord r w).host_id = r.host_id := by
  unfold applyWord
  split <;> simp

lemma applyLetter_frame (r : Room) (a : Char) :
    (applyLetter r a).secret = r.secret ∧ (applyLetter r a).max_fails = r.max_fails
    ∧ (applyLetter r a).turn_idx = r.turn_idx ∧ (applyLetter r a).started = r.started
    ∧ (applyLetter r a).order = r.order ∧ (applyLetter r a).host_id = r.host_id := by
  unfold applyLetter
  simp

lemma mutateGuess_frame (r : Room) (txt : List Char) :
    (mutateGuess r txt).secret = r.secret ∧ (mutateGuess r txt).max_fails = r.max_fails
    ∧ (mutateGuess r txt).turn_idx = r.turn_idx ∧ (mutateGuess r txt).started = r.started
    ∧ (mutateGuess r txt).order = r.order ∧ (mutateGuess r txt).host_id = r.host_id := by
  rcases txt with _ | ⟨a, _ | ⟨b, t⟩⟩
  · rw [mutateGuess_nil]
    exact applyWord_frame r _
  · rw [mutateGuess_one]
    exact applyLetter_frame r a
  · rw [mutateGuess_cons]
    exact applyWord_frame r _

lemma mutateGuess_fails (r : Room) (txt : List Char) :
    (mutateGuess r txt).fails = r.fails ∨ (mutateGuess r txt).fails = r.fails + 1 := by
  rcases txt with _ | ⟨a, _ | ⟨b, t⟩⟩
  · rw [mutateGuess_nil]
    unfold applyWord
    split <;> simp
  · rw [mutateGuess_one]
    unfold applyLetter
    by_cases h : a ∈ r.secret.data
    · left
      simp [h]
    · right
      simp [h]
  · rw [mutateGuess_cons]
    unfold applyWord
    split <;> simp

lemma guessCore_valid (r : Room) (txt : List Char) (h : validGuess r txt) :
    guessCore r txt = endCheck (mutateGuess r txt) := by
  rcases txt with _ | ⟨a, _ | ⟨b, t⟩⟩
  · exact absurd h (fun hf => hf)
  · obtain ⟨h1, h2⟩ := (validGuess_one r a).mp h
    rw [guessCore_one, mutateGuess_one, if_neg (by simpa using h1), if_neg h2]
  · have h2 : 2 ≤ (normalize_word (String.mk (a :: b :: t))).length := (validGuess_cons r a b t).mp h
    rw [guessCore_cons, mutateGuess_cons, if_neg (by omega)]

lemma guessCore_reject (r : Room) (txt : List Char) (h : ¬ validGuess r txt) :
    guessCore r txt = (r, none) := by
  rcases txt with _ | ⟨a, _ | ⟨b, t⟩⟩
  · rfl
  · rw [guessCore_one]
    by_cases hA : a ∈ ALLOWED
    · have hG : a ∈ r.guessed := by
        by_contra hg
        exact h ((validGuess_one r a).mpr ⟨hA, hg⟩)
      rw [if_neg (by simpa using hA), if_pos hG]
    · rw [if_pos hA]
  · have h2 : ¬ 2 ≤ (normalize_word (String.mk (a :: b :: t))).length :=
      fun hc => h ((validGuess_cons r a b t).mpr hc)
    rw [guessCore_cons, if_pos (by omega)]

lemma on_text_guards (r : Room) (uid : Int) (text : String)
    (hst : r.started = true) (hord : r.order ≠ [])
    (hhost : uid ≠ r.host_id) (hturn : uid = current_turn_user r) :
    on_text r uid text = guessCore r (pyLower (pyStrip text)).data := by
  unfold on_text
  rw [if_neg (by simp [hst, hord]), if_neg hhost, if_neg (by simp [hturn])]

lemma on_text_noop (r : Room) (uid : Int) (text : String)
    (h : r.started = false ∨ r.order = [] ∨ uid = r.host_id ∨ uid ≠ current_turn_user r) :
    on_text r uid text = (r, none) := by
  unfold on_text
  by_cases h1 : r.started = false ∨ r.order = []
  · rw [if_pos h1]
  · rw [if_neg h1]
    by_cases h2 : uid = r.host_id
    · rw [if_pos h2]
    · rw [if_neg h2]
      have h3 : uid ≠ current_turn_user r := by tauto
      rw [if_pos h3]

lemma guessCore_frame (r : Room) (txt : List Char) :
    (guessCore r txt).1.order = r.order ∧ (guessCore r txt).1.host_id = r.host_id
    ∧ ((guessCore r txt).1.started = true → r.started = true) := by
  by_cases h : validGuess r txt
  · rw [guessCore_valid r txt h]
    obtain ⟨ho, hh, -, -, -, -, hs⟩ := endCheck_frame (mutateGuess r txt)
    obtain ⟨-, -, -, hs2, ho2, hh2⟩ := mutateGuess_frame r txt
    refine ⟨ho.trans ho2, hh.trans hh2, fun h1 => ?_⟩
    rw [← hs2]
    exact hs h1
  · rw [guessCore_reject r txt h]
    exact ⟨rfl, rfl, fun h1 => h1⟩

lemma on_text_frame (r : Room) (uid : Int) (text : String) :
    (on_text r uid text).1.order = r.order ∧ (on_text r uid text).1.host_id = r.host_id
    ∧ ((on_text r uid text).1.started = true → r.started = true) := by
  unfold on_text
  split
  · exact ⟨rfl, rfl, fun h => h⟩
  · split
    · exact ⟨rfl, rfl, fun h => h⟩
    · split
      · exact ⟨rfl, rfl, fun h => h⟩
      · exact guessCore_frame r _

/-! Concrete rooms used by counterexamples and witnesses. -/

/-- Started room, secret "да", one guesser (uid 2), host 1, one life. -/
def roomDa : Room :=
  { code := "R", host_id := 1, players := [1, 2], order := [2],
    started := true, max_fails := 1, secret := "да" }

/-- Started room, secret "да", one guesser (uid 2), host 1, six lives. -/
def roomDa6 : Room :=
  { code := "R", host_id := 1, players := [1, 2], order := [2],
    started := true, max_fails := 6, secret := "да" }

/-- C1: in a started room with guessers and a configured secret (a started
room always has a nonempty secret, since start_game refuses an empty one),
a state-changing guess by the active non-host guesser is followed by the end
checks in source order: if every character of the secret is guessed the
round ends with started = false; otherwise if fails has reached max_fails
the round ends with started = false; otherwise started stays true and
turn_idx advances by exactly one. -/
theorem c1_guess_end_condition_order (r : Room) (uid : Int) (text : String)
    (hst : r.started = true) (hord : r.order ≠ []) (hsec : r.secret ≠ "")
    (hhost : uid ≠ r.host_id) (hturn : uid = current_turn_user r)
    (hval : validGuess r (pyLower (pyStrip text)).data) :
    ((∀ c ∈ r.secret.data, c ∈ (mutateGuess r (pyLower (pyStrip text)).data).guessed) →
        (on_text r uid text).1.started = false
        ∧ (on_text r uid text).1.turn_idx = r.turn_idx)
    ∧ ((¬ ∀ c ∈ r.secret.data, c ∈ (mutateGuess r (pyLower (pyStrip text)).data).guessed) →
        r.max_fails ≤ (mutateGuess r (pyLower (pyStrip text)).data).fails →
        (on_text r uid text).1.started = false
        ∧ (on_text r uid text).1.turn_idx = r.turn_idx)
    ∧ ((¬ ∀ c ∈ r.secret.data, c ∈ (mutateGuess r (pyLower (pyStrip text)).data).guessed) →
        (mutateGuess r (pyLower (pyStrip text)).data).fails < r.max_fails →
        (on_text r uid text).1.started = true
        ∧ (on_text r uid text).1.turn_idx = r.turn_idx + 1) := by
  have heq : on_text r uid text = endCheck (mutateGuess r (pyLower (pyStrip text)).data) := by
    rw [on_text_guards r uid text hst hord hhost hturn,
        guessCore_valid r (pyLower (pyStrip text)).data hval]
  obtain ⟨hsec1, hmax1, hti1, hstart1, -, -⟩ := mutateGuess_frame r (pyLower (pyStrip text)).data
  refine ⟨?_, ?_, ?_⟩
  · intro hwin
    have hw : winCond (mutateGuess r (pyLower (pyStrip text)).data) := by
      unfold winCond
      rw [hsec1]
      exact ⟨hsec, hwin⟩
    rw [heq, endCheck_win _ hw]
    exact ⟨rfl, hti1⟩
  · intro hnowin hlose
    have hw : ¬ winCond (mutateGuess r (pyLower (pyStrip text)).data) := by
      intro hc
      apply hnowin
      unfold winCond at hc
      rw [hsec1] at hc
      exact hc.2
    have hl : loseCond (mutateGuess r (pyLower (pyStrip text)).data) := by
      unfold loseCond
      rw [hmax1]
      exact hlose
    rw [heq, endCheck_lose _ hw hl]
    exact ⟨rfl, hti1⟩
  · intro hnowin hcont
    have hw : ¬ winCond (mutateGuess r (pyLower (pyStrip text)).data) := by
      intro hc
      apply hnowin
      unfold winCond at hc
      rw [hsec1] at hc
      exact hc.2
    have hl : ¬ loseCond (mutateGuess r (pyLower (pyStrip text)).data) := by
      unfold loseCond
      rw [hmax1]
      omega
    rw [heq, endCheck_cont _ hw hl]
    refine ⟨hstart1.trans hst, ?_⟩
    show (mutateGuess r (pyLower (pyStrip text)).data).turn_idx + 1 = r.turn_idx + 1
    omega

/-- Witness for C1: in roomDa6 the active guesser 2 guesses letter "д";
no end condition holds, so the round continues and the turn advances. -/
theorem c1_witness :
    (on_text roomDa6 2 "д").1.started = true
    ∧ (on_text roomDa6 2 "д").1.turn_idx = roomDa6.turn_idx + 1 :=
  (c1_guess_end_condition_order roomDa6 2 "д" (by decide) (by decide) (by decide)
    (by decide) (by decide) (by decide)).2.2 (by decide) (by decide)

/-- C2 counterexample: in roomDa (one life) the active guesser 2 guesses the
wrong letter "б"; the loss fires and ends the round, but the secret's
character д is NOT added to guessed — the claim's "every character of
secret is added to guessed" is false on the code (finish, src/bot.py lines
375-378, only flips started and re-renders; the secret reaches the players
through the defeat broadcast text instead). -/
theorem c2_counterexample :
    (on_text roomDa 2 "б").1.started = false
    ∧ roomDa.max_fails ≤ (on_text roomDa 2 "б").1.fails
    ∧ ¬ ('д' ∈ (on_text roomDa 2 "б").1.guessed) := by
  decide

/-- C2 amended: when a state-changing guess (that does not win) brings fails
to max_fails in a started room whose loss condition had not fired before,
the round ends with started = false, fails lands exactly on max_fails, and
the secret is revealed in the defeat broadcast text (not via guessed). -/
theorem c2_loss_boundary (r : Room) (uid : Int) (text : String)
    (hst : r.started = true) (hord : r.order ≠ [])
    (hhost : uid ≠ r.host_id) (hturn : uid = current_turn_user r)
    (hval : validGuess r (pyLower (pyStrip text)).data)
    (hnowin : ¬ ∀ c ∈ r.secret.data, c ∈ (mutateGuess r (pyLower (pyStrip text)).data).guessed)
    (hlose : r.max_fails ≤ (mutateGuess r (pyLower (pyStrip text)).data).fails)
    (hfirst : r.fails < r.max_fails) :
    (on_text r uid text).1.started = false
    ∧ (on_text r uid text).1.fails = r.max_fails
    ∧ (on_text r uid text).2 = some ("💀 Поражение. Слово было: " ++ r.secret) := by
  have heq : on_text r uid text = endCheck (mutateGuess r (pyLower (pyStrip text)).data) := by
    rw [on_text_guards r uid text hst hord hhost hturn,
        guessCore_valid r (pyLower (pyStrip text)).data hval]
  obtain ⟨hsec1, hmax1, hti1, hstart1, -, -⟩ := mutateGuess_frame r (pyLower (pyStrip text)).data
  have hw : ¬ winCond (mutateGuess r (pyLower (pyStrip text)).data) := by
    intro hc
    apply hnowin
    unfold winCond at hc
    rw [hsec1] at hc
    exact hc.2
  have hl : loseCond (mutateGuess r (pyLower (pyStrip text)).data) := by
    unfold loseCond
    rw [hmax1]
    exact hlose
  rw [heq, endCheck_lose _ hw hl]
  refine ⟨rfl, ?_, ?_⟩
  · show (mutateGuess r (pyLower (pyStrip text)).data).fails = r.max_fails
    rcases mutateGuess_fails r (pyLower (pyStrip text)).data with h | h <;> omega
  · rw [hsec1]

/-- Witness for C2: in roomDa the wrong letter "б" makes fails reach
max_fails = 1 for the first time: the round ends, fails = max_fails, and the
defeat broadcast carries the secret. -/
theorem c2_witness :
    (on_text roomDa 2 "б").1.started = false
    ∧ (on_text roomDa 2 "б").1.fails = roomDa.max_fails
    ∧ (on_text roomDa 2 "б").2 = some ("💀 Поражение. Слово было: " ++ roomDa.secret) :=
  c2_loss_boundary roomDa 2 "б" (by decide) (by decide) (by decide)
    (by decide) (by decide) (by decide) (by decide) (by decide)

/-- C3: in a started room with guessers, host input, out-of-turn input and
invalid guesses (out-of-alphabet letter, repeated letter, too-short word,
empty text) leave the room — in particular guessed, fails, turn_idx,
started and secret — unchanged, while a state-changing guess by the active
non-host guesser always consumes the turn: the round ends or turn_idx
advances by exactly one. -/
theorem c3_frame_and_turn_consumption (r : Room) (uid : Int) (text : String)
    (hst : r.started = true) (hord : r.order ≠ []) :
    ((uid = r.host_id ∨ uid ≠ current_turn_user r
        ∨ ¬ validGuess r (pyLower (pyStrip text)).data) →
      (on_text r uid text).1 = r)
    ∧ ((uid ≠ r.host_id ∧ uid = current_turn_user r
        ∧ validGuess r (pyLower (pyStrip text)).data) →
      ((on_text r uid text).1.started = false
        ∨ (on_text r uid text).1.turn_idx = r.turn_idx + 1)) := by
  constructor
  · intro h
    by_cases hh : uid = r.host_id
    · rw [on_text_noop r uid text (Or.inr (Or.inr (Or.inl hh)))]
    · by_cases ht : uid = current_turn_user r
      · have hv : ¬ validGuess r (pyLower (pyStrip text)).data := by tauto
        rw [on_text_guards r uid text hst hord hh ht,
            guessCore_reject r (pyLower (pyStrip text)).data hv]
      · rw [on_text_noop r uid text (Or.inr (Or.inr (Or.inr ht)))]
  · rintro ⟨hh, ht, hv⟩
    rw [on_text_guards r uid text hst hord hh ht,
        guessCore_valid r (pyLower (pyStrip text)).data hv]
    obtain ⟨-, -, hti1, -, -, -⟩ := mutateGuess_frame r (pyLower (pyStrip text)).data
    by_cases hw : winCond (mutateGuess r (pyLower (pyStrip text)).data)
    · left
      rw [endCheck_win _ hw]
    · by_cases hl : loseCond (mutateGuess r (pyLower (pyStrip text)).data)
      · left
        rw [endCheck_lose _ hw hl]
      · right
        rw [endCheck_cont _ hw hl]
        show (mutateGuess r (pyLower (pyStrip text)).data).turn_idx + 1 = r.turn_idx + 1
        omega

/-- Witness for C3: host input (uid 1) during a started round leaves the
room state unchanged. -/
theorem c3_witness : (on_text roomDa6 1 "д").1 = roomDa6 :=
  (c3_frame_and_turn_consumption roomDa6 1 "д" (by decide) (by decide)).1
    (Or.inl (by decide))

/-- C9: the normalizer strips, lower-cases and filters to the game alphabet
(normalize_word "  Привет-Мир  " = "привет-мир", normalize_word "hello" =
""), and a setWord input that is not one of the dispatch buttons and whose
normalized form is shorter than 2 characters is rejected with the room —
secret, guessed, fails, turn_idx and started included — unchanged. -/
theorem c9_normalizer_and_short_word_rejection (r : Room) (uid : Int) (text : String)
    (hbtn : ¬ (pyStrip text = BTN_CLOSE ∨ pyStrip text = BTN_LEAVE ∨ pyStrip text = BTN_START))
    (hshort : (normalize_word (pyStrip text)).length < 2) :
    normalize_word "  Привет-Мир  " = "привет-мир"
    ∧ normalize_word "hello" = ""
    ∧ host_setup_word r uid text = some r := by
  refine ⟨by decide, by decide, ?_⟩
  unfold host_setup_word
  rw [if_neg hbtn]
  by_cases h : uid ≠ r.host_id
  · rw [if_pos h]
  · rw [if_neg h, if_pos hshort]

/-- Witness for C9: the host submits "hello", which normalizes to the empty
word and is rejected without touching the room. -/
theorem c9_witness :
    normalize_word "  Привет-Мир  " = "привет-мир"
    ∧ normalize_word "hello" = ""
    ∧ host_setup_word roomDa6 1 "hello" = some roomDa6 :=
  c9_normalizer_and_short_word_rejection roomDa6 1 "hello" (by decide) (by decide)

/-- C10: reading the active turn is total and in range for every room state:
current_turn_user returns -1 exactly on an empty order, and on a nonempty
order the index turn_idx % len(order) is in range and the returned value
is an element of order, for every value of turn_idx. -/
theorem c10_current_turn_total (r : Room) :
    (r.order = [] → current_turn_user r = -1)
    ∧ (r.order ≠ [] →
        r.turn_idx % r.order.length < r.order.length
        ∧ current_turn_user r ∈ r.order) := by
  obtain ⟨code, host, players, order, started, mf, secret, guessed, fails, ti⟩ := r
  cases order with
  | nil =>
      refine ⟨fun _ => rfl, fun h => absurd rfl h⟩
  | cons a rest =>
      refine ⟨fun h => absurd h (by simp), fun _ => ⟨Nat.mod_lt _ (Nat.succ_pos _), ?_⟩⟩
      show current_turn_user
        { code := code, host_id := host, players := players, order := a :: rest,
          started := started, max_fails := mf, secret := secret, guessed := guessed,
          fails := fails, turn_idx := ti } ∈ a :: rest
      unfold current_turn_user
      exact List.get_mem _ _ _

/-- Room whose turn index has run far past the order length. -/
def roomFarTurn : Room :=
  { code := "T", host_id := 1, players := [1, 2, 3], order := [2, 3],
    started := true, secret := "да", turn_idx := 7 }

/-- Witness for C10: with turn_idx = 7 and two guessers the read is still an
element of order. -/
theorem c10_witness : current_turn_user roomFarTurn ∈ roomFarTurn.order :=
  ((c10_current_turn_total roomFarTurn).2 (by decide)).2

/-! Invariant preservation over the room operations. -/

lemma transferOrder_nodup (r : Room) (nh : Int) (h : r.order.Nodup) :
    (transferOrder r nh).Nodup := by
  unfold transferOrder
  split
  · next hc =>
      refine (h.erase nh).append (List.nodup_singleton _) ?_
      intro a ha hb
      rw [List.mem_singleton] at hb
      exact hc.2.2 (hb ▸ ha)
  · exact h.erase nh

lemma transferOrder_newhost_not_mem (r : Room) (nh : Int) (h : r.order.Nodup) :
    nh ∉ transferOrder r nh := by
  unfold transferOrder
  split
  · next hc =>
      intro hmem
      rw [List.mem_append, List.mem_singleton] at hmem
      rcases hmem with hmem | hmem
      · exact h.not_mem_erase hmem
      · exact hc.1 hmem.symm
  · exact h.not_mem_erase

lemma transfer_room_fields (r : Room) (nh : Int) :
    (transfer_room r nh).order = transferOrder r nh
    ∧ (transfer_room r nh).host_id = nh
    ∧ ((transfer_room r nh).started = true → (r.started = true ∧ transferOrder r nh ≠ []))
    ∧ (transferOrder r nh = [] → (transfer_room r nh).started = false) := by
  unfold transfer_room
  split
  · next hemp =>
      split
      · next hs => simp
      · next hs =>
          simp only [Bool.not_eq_true] at hs
          simp [hs]
  · next hne =>
      split
      · next hmem =>
          refine ⟨rfl, rfl, fun hs => ⟨hs, hne⟩, fun he => absurd he hne⟩
      · next hmem =>
          refine ⟨rfl, rfl, fun hs => ⟨hs, hne⟩, fun he => absurd he hne⟩

lemma start_game_order (r : Room) : (start_game r).order = r.order := by
  unfold start_game reset_game
  split
  · rfl
  · split <;> rfl

lemma start_game_inv (r : Room) (h : RoomInv r) : RoomInv (start_game r) := by
  unfold start_game
  split
  · exact h
  · split
    · exact h
    · next hlen =>
        refine ⟨h.1, h.2.1, fun _ => ?_⟩
        show r.order ≠ []
        intro hnil
        rw [hnil] at hlen
        exact hlen (by simp)

lemma host_setup_word_inv (r : Room) (uid : Int) (text : String) (h : RoomInv r) :
    ∀ r1, host_setup_word r uid text = some r1 → RoomInv r1 := by
  intro r1 hsw
  unfold host_setup_word at hsw
  split at hsw
  · exact absurd hsw (by simp)
  · split at hsw
    · cases hsw
      exact h
    · split at hsw
      · cases hsw
        exact h
      · split at hsw
        · cases hsw
          exact start_game_inv _ ⟨h.1, h.2.1, fun hs => by simp at hs⟩
        · cases hsw
          exact ⟨h.1, h.2.1, fun hs => by simp at hs⟩

lemma host_setup_word_order (r : Room) (uid : Int) (text : String) :
    ∀ r1, host_setup_word r uid text = some r1 → r1.order = r.order := by
  intro r1 hsw
  unfold host_setup_word at hsw
  split at hsw
  · exact absurd hsw (by simp)
  · split at hsw
    · cases hsw
      rfl
    · split at hsw
      · cases hsw
        rfl
      · split at hsw
        · cases hsw
          rw [start_game_order]
        · cases hsw
          rfl

lemma applyOp_inv (r : Room) (op : Op) (h : RoomInv r) : RoomInv (applyOp r op) := by
  cases op with
  | join uid =>
      show RoomInv (join_room r uid)
      unfold join_room RoomInv
      split
      · next hc =>
          refine ⟨h.1.append (List.nodup_singleton _) ?_, ?_, fun _ => by simp⟩
          · intro a ha hb
            rw [List.mem_singleton] at hb
            exact hc.2 (hb ▸ ha)
          · intro hmem
            rw [List.mem_append, List.mem_singleton] at hmem
            rcases hmem with hmem | hmem
            · exact h.2.1 hmem
            · exact hc.1 hmem.symm
      · exact h
  | leave uid => exact h
  | kick idx =>
      show RoomInv (kick_room r idx)
      unfold kick_room
      split
      · exact h
      · exact h
  | transfer nh =>
      obtain ⟨hord, hhost, hstImp, -⟩ := transfer_room_fields r nh
      show RoomInv (transfer_room r nh)
      refine ⟨?_, ?_, ?_⟩
      · rw [hord]
        exact transferOrder_nodup r nh h.1
      · rw [hord, hhost]
        exact transferOrder_newhost_not_mem r nh h.1
      · intro hs
        rw [hord]
        exact (hstImp hs).2
  | startg => exact start_game_inv r h
  | setLives n =>
      show RoomInv (host_setup_lives r n)
      unfold host_setup_lives
      split
      · exact h
      · exact h
  | setWord uid text =>
      show RoomInv (match host_setup_word r uid text with
        | some r1 => r1
        | none => r)
      cases hsw : host_setup_word r uid text with
      | none => exact h
      | some rx => exact host_setup_word_inv r uid text h rx hsw
  | guess uid text =>
      obtain ⟨ho, hh, hs⟩ := on_text_frame r uid text
      show RoomInv (on_text r uid text).1
      refine ⟨?_, ?_, ?_⟩
      · rw [ho]
        exact h.1
      · rw [ho, hh]
        exact h.2.1
      · intro h1
        rw [ho]
        exact h.2.2 (hs h1)

lemma applyOp_empty_stops (r : Room) (op : Op)
    (h1 : r.order ≠ []) (h2 : (applyOp r op).order = []) :
    (applyOp r op).started = false := by
  cases op with
  | join uid =>
      exfalso
      apply h1
      revert h2
      show (join_room r uid).order = [] → r.order = []
      unfold join_room
      split
      · intro h2
        simp at h2
      · exact fun h2 => h2
  | leave uid => exact absurd h2 h1
  | kick idx =>
      exfalso
      apply h1
      revert h2
      show (kick_room r idx).order = [] → r.order = []
      unfold kick_room
      split
      · exact fun h2 => h2
      · exact fun h2 => h2
  | transfer nh =>
      obtain ⟨hord, -, -, hstEmpty⟩ := transfer_room_fields r nh
      have h2a : (transfer_room r nh).order = [] := h2
      rw [hord] at h2a
      show (transfer_room r nh).started = false
      exact hstEmpty h2a
  | startg =>
      exfalso
      apply h1
      rw [← start_game_order r]
      exact h2
  | setLives n =>
      exfalso
      apply h1
      revert h2
      show (host_setup_lives r n).order = [] → r.order = []
      unfold host_setup_lives
      split
      · exact fun h2 => h2
      · exact fun h2 => h2
  | setWord uid text =>
      exfalso
      apply h1
      have h2a : (match host_setup_word r uid text with
        | some r1 => r1
        | none => r).order = [] := h2
      cases hsw : host_setup_word r uid text with
      | none =>
          rw [hsw] at h2a
          exact h2a
      | some rx =>
          rw [hsw] at h2a
          exact (host_setup_word_order r uid text rx hsw).symm.trans h2a
  | guess uid text =>
      exfalso
      apply h1
      have h2a : (on_text r uid text).1.order = [] := h2
      exact ((on_text_frame r uid text).1).symm.trans h2a

/-- C6: host_id is never an element of order: it holds for a freshly created
room, and every room operation (join, leave, kick, transfer host, start,
set lives, set word, guess) preserves it, given a well-formed room.  The
transfer case rests on transferOrder: the new host is removed from order
before the outgoing host is appended. -/
theorem c6_host_not_in_order (code : String) (u : Int) (r : Room) (op : Op)
    (h : RoomInv r) :
    (create_room code u).host_id ∉ (create_room code u).order
    ∧ (applyOp r op).host_id ∉ (applyOp r op).order :=
  ⟨by simp [create_room], (applyOp_inv r op h).2.1⟩

/-- C7: no operation leaves a started room without guessers: started rooms
keep a nonempty order after every operation, and an operation that empties
the order of a room (only transfer_room can, since the AttributeError of
cmd_leave and kick_wait aborts them before they touch order) turns started
off within that same operation. -/
theorem c7_no_started_room_without_guessers (r : Room) (op : Op) (h : RoomInv r) :
    ((applyOp r op).started = true → (applyOp r op).order ≠ [])
    ∧ (r.order ≠ [] → (applyOp r op).order = [] → (applyOp r op).started = false) :=
  ⟨(applyOp_inv r op h).2.2, applyOp_empty_stops r op⟩

/-- Started room whose host has already been discarded from players by the
crashing leave handler; its single guesser is user 2. -/
def roomOrphanHost : Room :=
  { code := "A", host_id := 1, players := [2], order := [2],
    started := true, secret := "да" }

/-- Three-member room used by the C6 witness. -/
def roomThree : Room :=
  { code := "A", host_id := 1, players := [1, 2, 3], order := [2, 3],
    started := true, secret := "да" }

/-- Witness for C6: transferring host to guesser 2 in roomThree keeps the
new host out of order, and a fresh room starts with the host out of order. -/
theorem c6_witness :
    (create_room "A" 1).host_id ∉ (create_room "A" 1).order
    ∧ (applyOp roomThree (Op.transfer 2)).host_id ∉ (applyOp roomThree (Op.transfer 2)).order :=
  c6_host_not_in_order "A" 1 roomThree (Op.transfer 2) (by decide)

/-- Witness for C7: transferring host to the sole guesser of roomOrphanHost
empties the order (the outgoing host is no longer a member, so they are not
appended), and the same operation stops the game. -/
theorem c7_witness : (applyOp roomOrphanHost (Op.transfer 2)).started = false :=
  (c7_no_started_room_without_guessers roomOrphanHost (Op.transfer 2) (by decide)).2
    (by decide) (by decide)

/-! Registry-level failing inputs: the status_msg_id typo. -/

/-- Registry holding one room ROOM1 (host 1, guesser 2, round started). -/
def gsHostLeave : GState :=
  { rooms_by_code := [("ROOM1",
      { code := "ROOM1", host_id := 1, players := [1, 2], order := [2],
        started := true, secret := "да" })],
    user_room := [(1, "ROOM1"), (2, "ROOM1")] }

/-- C4 failing input: the host (uid 1) of ROOM1 leaves, and separately
closes the room.  In both paths the AttributeError on room.status_msg_id
(the dataclass field is status_msg_ids) escapes before rooms_by_code.pop
runs: the room stays in the registry and member 2 still resolves to it,
contrary to the claim that the room entry and every member association are
removed. -/
theorem c4_host_departure_crash :
    (cmd_leave gsHostLeave 1).2 = true
    ∧ lookupRoom (cmd_leave gsHostLeave 1).1.rooms_by_code "ROOM1" ≠ none
    ∧ lookupUser (cmd_leave gsHostLeave 1).1.user_room 2 = some "ROOM1"
    ∧ (cmd_close gsHostLeave 1).2 = true
    ∧ lookupRoom (cmd_close gsHostLeave 1).1.rooms_by_code "ROOM1" ≠ none := by
  decide

/-- Registry holding one room ROOM2 (host 1, guessers 2 and 3, started). -/
def gsMemberLeave : GState :=
  { rooms_by_code := [("ROOM2",
      { code := "ROOM2", host_id := 1, players := [1, 2, 3], order := [2, 3],
        started := true, secret := "да" })],
    user_room := [(1, "ROOM2"), (2, "ROOM2"), (3, "ROOM2")] }

/-- ROOM2 as it stands after guesser 2's leave crashed. -/
def roomAfterLeave : Room :=
  { code := "ROOM2", host_id := 1, players := [1, 3], order := [2, 3],
    started := true, secret := "да" }

/-- C5 failing input: non-host guesser 2 leaves ROOM2.  The handler removes
2 from user_room and players, then crashes on room.status_msg_id — 2 is
never removed from order and turn_idx is never re-normalized, contrary to
the claim. -/
theorem c5_member_leave_crash :
    (cmd_leave gsMemberLeave 2).2 = true
    ∧ lookupRoom (cmd_leave gsMemberLeave 2).1.rooms_by_code "ROOM2" = some roomAfterLeave
    ∧ 2 ∉ roomAfterLeave.players
    ∧ 2 ∈ roomAfterLeave.order := by
  decide

/-- Registry holding one room ROOM3 (host 1, guesser 2, started). -/
def gsAtomicity : GState :=
  { rooms_by_code := [("ROOM3",
      { code := "ROOM3", host_id := 1, players := [1, 2], order := [2],
        started := true, secret := "да" })],
    user_room := [(1, "ROOM3"), (2, "ROOM3")] }

/-- C8 failing input: non-host guesser 2 leaves ROOM3.  The AttributeError
on room.status_msg_id escapes the handler after the registry mapping and
the players entry were already mutated: the operation neither completes
(2 is still in the stored room's order) nor is a no-op on shared state, and
an exception propagates out of a single operation — the atomicity claim
fails on the code. -/
theorem c8_leave_not_atomic :
    (cmd_leave gsAtomicity 2).2 = true
    ∧ (cmd_leave gsAtomicity 2).1 ≠ gsAtomicity
    ∧ lookupRoom (cmd_leave gsAtomicity 2).1.rooms_by_code "ROOM3" =
        some { code := "ROOM3", host_id := 1, players := [1], order := [2],
               started := true, secret := "да" } := by
  decide

end MarGame
